import Mathlib

/-!
Shallow embedding of the deepmock rule-matching and response-execution engine
(`src/domain/executor.go`, `src/unnamed/part_000`) and proofs about it.

Modelling conventions:
* Go byte slices (`[]byte`) are `List Nat` (one entry per byte). `bytes.Compare
  x y != 0` becomes decidable list inequality; `bytes.Contains a b` becomes
  `bytesContains a b` (contiguous-run containment).
* `fasthttp` header/query access (`Peek`) is modelled as a total function
  `String → List Nat`; a missing key yields `[]`, matching Go where `Peek`
  returns `nil` and `bytes.Compare nil v == 0` iff `v` is empty.
* Go `map` valued configuration (`params`, weight factors) is an association
  list; every property proved about it is order-independent or assumes the
  keys are pairwise distinct, which Go maps guarantee.
* A compiled `*regexp.Regexp` is abstracted as its match predicate
  `List Nat → Bool` (compilation happens before the code under study runs).
* A nilable Go pointer receiver is `Option _`; the `nil` case of each method
  is the first match arm, exactly as in the Go source.
-/

namespace Deepmock

/-- Go `[]byte`, one `Nat` per byte. -/
abbrev ByteStr := List Nat

/-- UTF-8 encoding of one code point. -/
def charUTF8 (c : Char) : List Nat :=
  let n := c.toNat
  if n < 128 then [n]
  else if n < 2048 then [192 + n / 64, 128 + n % 64]
  else if n < 65536 then [224 + n / 4096, 128 + n / 64 % 64, 128 + n % 64]
  else [240 + n / 262144, 128 + n / 4096 % 64, 128 + n / 64 % 64, 128 + n % 64]

/-- The bytes of a Go string (UTF-8), as used by `[]byte(s)`. -/
def strBytes (s : String) : ByteStr := (s.data.map charUTF8).flatten

/-- Go `bytes.Contains s sub`: `sub` occurs as a contiguous run inside `s`. -/
def bytesContains (s sub : ByteStr) : Bool :=
  (List.range (s.length + 1)).any (fun i => sub.isPrefixOf (s.drop i))

/-- `FilterMode` is a string type alias in the source. -/
abbrev FilterMode := String

def FilterModeAlwaysTrue : FilterMode := "always_true"

def FilterModeExact : FilterMode := "exact"

def FilterModeKeyword : FilterMode := "keyword"

def FilterModeRegular : FilterMode := "regular"

/-- `fasthttp.RequestHeader`/`fasthttp.Args` reduced to their `Peek` view. -/
abbrev PeekMap := String → ByteStr

/-- `HeaderFilterExecutor`: params map, mode, per-key compiled patterns. -/
structure HeaderFilterExecutor where
  params : List (String × ByteStr)
  mode : FilterMode
  regulars : String → ByteStr → Bool

/-- `QueryFilterExecutor`: params map, mode, per-key compiled patterns. -/
structure QueryFilterExecutor where
  params : List (String × ByteStr)
  mode : FilterMode
  regulars : String → ByteStr → Bool

/-- `BodyFilterExecutor`: mode, whole-body pattern, keyword bytes. -/
structure BodyFilterExecutor where
  mode : FilterMode
  regular : ByteStr → Bool
  keyword : ByteStr

def HeaderFilterExecutor.filterByExactKeyValue (hfe : HeaderFilterExecutor)
    (header : PeekMap) : Bool :=
  hfe.params.all (fun kv => header kv.1 == kv.2)

def HeaderFilterExecutor.filterByKeyword (hfe : HeaderFilterExecutor)
    (header : PeekMap) : Bool :=
  hfe.params.all (fun kv => bytesContains (header kv.1) kv.2)

def HeaderFilterExecutor.filterByRegular (hfe : HeaderFilterExecutor)
    (header : PeekMap) : Bool :=
  hfe.params.all (fun kv => hfe.regulars kv.1 (header kv.1))

/-- `HeaderFilterExecutor.Filter`. Note: the source dispatches
`FilterModeKeyword` to `filterByExactKeyValue`, not to `filterByKeyword`. -/
def HeaderFilterExecutor.Filter (hfe : Option HeaderFilterExecutor)
    (header : PeekMap) : Bool :=
  match hfe with
  | none => true
  | some hfe =>
    if hfe.mode = FilterModeAlwaysTrue then true
    else if hfe.mode = FilterModeExact then hfe.filterByExactKeyValue header
    else if hfe.mode = FilterModeKeyword then hfe.filterByExactKeyValue header
    else if hfe.mode = FilterModeRegular then hfe.filterByRegular header
    else false

def QueryFilterExecutor.filterByExactKeyValue (qfe : QueryFilterExecutor)
    (args : PeekMap) : Bool :=
  qfe.params.all (fun kv => args kv.1 == kv.2)

def QueryFilterExecutor.filterByKeyword (qfe : QueryFilterExecutor)
    (args : PeekMap) : Bool :=
  qfe.params.all (fun kv => bytesContains (args kv.1) kv.2)

def QueryFilterExecutor.filterByRegular (qfe : QueryFilterExecutor)
    (args : PeekMap) : Bool :=
  qfe.params.all (fun kv => qfe.regulars kv.1 (args kv.1))

/-- `QueryFilterExecutor.Filter`. As for headers, `FilterModeKeyword`
dispatches to `filterByExactKeyValue` in the source. -/
def QueryFilterExecutor.Filter (qfe : Option QueryFilterExecutor)
    (args : PeekMap) : Bool :=
  match qfe with
  | none => true
  | some qfe =>
    if qfe.mode = FilterModeAlwaysTrue then true
    else if qfe.mode = FilterModeExact then qfe.filterByExactKeyValue args
    else if qfe.mode = FilterModeKeyword then qfe.filterByExactKeyValue args
    else if qfe.mode = FilterModeRegular then qfe.filterByRegular args
    else false

/-- `BodyFilterExecutor.Filter`: whole-body keyword containment or pattern
match; no `exact` arm exists for bodies. -/
def BodyFilterExecutor.Filter (bfe : Option BodyFilterExecutor)
    (body : ByteStr) : Bool :=
  match bfe with
  | none => true
  | some bfe =>
    if bfe.mode = FilterModeAlwaysTrue then true
    else if bfe.mode = FilterModeKeyword then bytesContains body bfe.keyword
    else if bfe.mode = FilterModeRegular then bfe.regular body
    else false

/-- Composite `FilterExecutor` (field order as in the source). -/
structure FilterExecutor where
  Query : Option QueryFilterExecutor
  Header : Option HeaderFilterExecutor
  Body : Option BodyFilterExecutor

/-- An incoming `fasthttp.Request`, reduced to what the filters read. -/
structure Request where
  header : PeekMap
  query : PeekMap
  body : ByteStr

/-- `FilterExecutor.Filter`: header, then query, then body, each an early
`return false`. -/
def FilterExecutor.Filter (fe : Option FilterExecutor) (request : Request) :
    Bool :=
  match fe with
  | none => true
  | some fe =>
    if !(HeaderFilterExecutor.Filter fe.Header request.header) then false
    else if !(QueryFilterExecutor.Filter fe.Query request.query) then false
    else if !(BodyFilterExecutor.Filter fe.Body request.body) then false
    else true

/-- Tags for the three sub-filters, used to observe evaluation order. -/
inductive SubFilter
  | header
  | query
  | body
deriving DecidableEq, Repr

/-- Instrumented copy of `FilterExecutor.Filter` that also records which
sub-filters were evaluated, in order, mirroring the early returns. -/
def FilterExecutor.filterTrace (fe : Option FilterExecutor) (request : Request) :
    Bool × List SubFilter :=
  match fe with
  | none => (true, [])
  | some fe =>
    if !(HeaderFilterExecutor.Filter fe.Header request.header) then
      (false, [SubFilter.header])
    else if !(QueryFilterExecutor.Filter fe.Query request.query) then
      (false, [SubFilter.header, SubFilter.query])
    else if !(BodyFilterExecutor.Filter fe.Body request.body) then
      (false, [SubFilter.header, SubFilter.query, SubFilter.body])
    else (true, [SubFilter.header, SubFilter.query, SubFilter.body])

/-- A parsed `html/template`. The render-context extraction helpers
(`extractHeaderAsParams` …) live outside the sources under study, so a parsed
template is abstracted as its execution function on the request. -/
structure GoTemplate where
  exec : Request → Except String ByteStr

/-- `TemplateExecutor`; the `fasthttp.ResponseHeader` field is modelled as its
status code plus header field list. -/
structure TemplateExecutor where
  IsGolangTemplate : Bool
  IsBinData : Bool
  template : Option GoTemplate
  statusCode : Nat
  headerFields : List (String × String)
  body : ByteStr

/-- The parts of a `fasthttp.Response` the engine writes. -/
structure Response where
  statusCode : Nat
  headerFields : List (String × String)
  body : ByteStr

/-- `TemplateExecutor.Render`: copy the compiled header into the response; a
non-template response gets the stored bytes as body; a template response
executes the compiled template into the body. -/
def TemplateExecutor.Render (te : TemplateExecutor) (req : Request)
    (resp : Response) : Except String Response :=
  let resp := { resp with statusCode := te.statusCode,
                          headerFields := te.headerFields }
  if !te.IsGolangTemplate then Except.ok { resp with body := te.body }
  else
    match te.template with
    | none => Except.error "nil template"
    | some t =>
      match t.exec req with
      | Except.error e => Except.error e
      | Except.ok out => Except.ok { resp with body := out }

/-- `RegulationExecutor`. -/
structure RegulationExecutor where
  IsDefault : Bool
  Filter : Option FilterExecutor
  Template : Option TemplateExecutor

/-- `WeightDice`: flattened weight distribution. -/
structure WeightDice where
  total : Nat
  distribution : List String
  factor : List (String × Nat)

/-- One iteration of the inner loop of `NewWeightDice`: append the variant
name once and bump `total`. -/
def pushVariant (wd : WeightDice) (k : String) : WeightDice :=
  { wd with distribution := wd.distribution ++ [k], total := wd.total + 1 }

/-- The inner `for i := 0; i < int(v); i++` loop of `NewWeightDice`. -/
def pushVariantN (wd : WeightDice) (k : String) : Nat → WeightDice
  | 0 => wd
  | n + 1 => pushVariantN (pushVariant wd k) k n

/-- `NewWeightDice`: flatten each `(name, weight)` entry into `weight` copies
of `name`. -/
def NewWeightDice (factor : List (String × Nat)) : WeightDice :=
  factor.foldl (fun wd kv => pushVariantN wd kv.1 kv.2)
    { total := 0, distribution := [], factor := factor }

/-- `WeightDice.Dice`: `distribution[rand.Intn(total)]`. The random source is
modelled as an arbitrary natural `i` reduced modulo `total`; `rand.Intn`
panics when `total = 0`, modelled as `none`. -/
def WeightDice.Dice (wd : WeightDice) (i : Nat) : Option String :=
  if wd.total = 0 then none else wd.distribution[i % wd.total]?

/-- Modelled from the spec: the rule-compilation path (`createRule` and the
weight-group validation it performs) is not among the sources under study;
the spec requires "Undefined/zero-weight groups must fail at compile time"
and "total weight must be > 0 for any group used at render time", so the
compile-time check accepts a weight-factor group exactly when its total
weight is positive. -/
def checkWeightFactor (factor : List (String × Nat)) : Bool :=
  decide (0 < (factor.map Prod.snd).sum)

/-- `Executor`: one compiled rule. `Path` is the compiled path pattern,
abstracted as its match predicate. -/
structure Executor where
  ID : String
  Method : ByteStr
  Path : ByteStr → Bool
  Weight : List (String × WeightDice)
  Regulations : List RegulationExecutor
  Version : Nat

/-- `Executor.Match`: exact method bytes, then the compiled path pattern
applied to the full path. -/
def Executor.Match (exe : Executor) (path method : ByteStr) : Bool :=
  if !(method == exe.Method) then false
  else exe.Path path

/-- The loop of `Executor.FindRegulationExecutor`: remember the latest
default seen in `reg`, return the first regulation whose filter passes,
else fall back to `reg`. -/
def findRegulationLoop (req : Request) :
    List RegulationExecutor → Option RegulationExecutor →
    Option RegulationExecutor
  | [], reg => reg
  | regulation :: rest, reg =>
    let reg := if regulation.IsDefault then some regulation else reg
    if FilterExecutor.Filter regulation.Filter req then some regulation
    else findRegulationLoop req rest reg

/-- `Executor.FindRegulationExecutor`. -/
def Executor.FindRegulationExecutor (exe : Executor) (req : Request) :
    Option RegulationExecutor :=
  findRegulationLoop req exe.Regulations none

/-- Instrumented copy of the `FindRegulationExecutor` loop that counts how
many regulation filters are evaluated before the loop stops. -/
def findRegulationEvalCount (req : Request) : List RegulationExecutor → Nat
  | [] => 0
  | regulation :: rest =>
    if FilterExecutor.Filter regulation.Filter req then 1
    else 1 + findRegulationEvalCount req rest

/-- `types.ResourceFilter` (only nil-ness is inspected by the checks). -/
structure ResourceFilter where
  Header : List (String × String)
  Query : List (String × String)
  Body : List (String × String)

/-- `types.ResourceResponseTemplate`. -/
structure ResourceResponseTemplate where
  IsTemplate : Bool
  Header : List (String × String)
  StatusCode : Nat
  Body : String
  B64EncodedBody : String

/-- `types.ResourceResponseRegulation`. -/
structure ResourceResponseRegulation where
  IsDefault : Bool
  Filter : Option ResourceFilter
  Response : Option ResourceResponseTemplate

/-- `ResourceResponseRegulation.check`: a non-default regulation must carry a
filter. -/
def ResourceResponseRegulation.check (rmr : ResourceResponseRegulation) :
    Except String Unit :=
  if !rmr.IsDefault && rmr.Filter.isNone then
    Except.error "missing filter rule, or set as default response"
  else Except.ok ()

/-- `ResourceResponseRegulationSet` is a nilable Go slice. -/
abbrev ResourceResponseRegulationSet := Option (List ResourceResponseRegulation)

/-- The loop of `ResourceResponseRegulationSet.check`: count defaults while
propagating the first per-regulation error. -/
def regulationSetCheckLoop :
    List ResourceResponseRegulation → Nat → Except String Nat
  | [], d => Except.ok d
  | r :: rest, d =>
    let d := if r.IsDefault then d + 1 else d
    match r.check with
    | Except.error e => Except.error e
    | Except.ok _ => regulationSetCheckLoop rest d

/-- `ResourceResponseRegulationSet.check`: non-nil, per-regulation checks,
then exactly one default. -/
def ResourceResponseRegulationSet.check (mrs : ResourceResponseRegulationSet) :
    Except String Unit :=
  match mrs with
  | none => Except.error "missing mock response"
  | some rs =>
    match regulationSetCheckLoop rs 0 with
    | Except.error e => Except.error e
    | Except.ok d =>
      if d ≠ 1 then
        Except.error "no default response or provided more than one"
      else Except.ok ()

/-- Value of one base64 alphabet character (`A-Z a-z 0-9 + /`). -/
def b64Val (c : Char) : Option Nat :=
  if 65 ≤ c.toNat ∧ c.toNat ≤ 90 then some (c.toNat - 65)
  else if 97 ≤ c.toNat ∧ c.toNat ≤ 122 then some (c.toNat - 97 + 26)
  else if 48 ≤ c.toNat ∧ c.toNat ≤ 57 then some (c.toNat - 48 + 52)
  else if c = '+' then some 62
  else if c = '/' then some 63
  else none

/-- Decode base64 four-character quanta (standard encoding with mandatory
padding, as `base64.StdEncoding.DecodeString` requires): `xx==` yields one
byte, `xxx=` two, a full quantum three; padding is only legal in the final
quantum and any other shape is an error. -/
def b64DecodeQuanta : List Char → Option (List Nat)
  | [] => some []
  | a :: b :: c :: d :: rest =>
    match b64Val a, b64Val b with
    | some va, some vb =>
      if c = '=' then
        if d = '=' ∧ rest = [] then some [va * 4 + vb / 16]
        else none
      else
        match b64Val c with
        | some vc =>
          if d = '=' then
            if rest = [] then some [va * 4 + vb / 16, vb % 16 * 16 + vc / 4]
            else none
          else
            match b64Val d with
            | some vd =>
              match b64DecodeQuanta rest with
              | some bs =>
                some ([va * 4 + vb / 16, vb % 16 * 16 + vc / 4,
                       vc % 4 * 64 + vd] ++ bs)
              | none => none
            | none => none
        | none => none
    | _, _ => none
  | _ => none

/-- `base64.StdEncoding.DecodeString`: newline characters are skipped, then
the input is decoded quantum by quantum; `none` models the Go error. -/
def base64Decode (s : String) : Option ByteStr :=
  b64DecodeQuanta (s.data.filter (fun c => c != '\r' && c != '\n'))

/-- Compiled `responseTemplate` (the compile-time product of
`newResponseTemplate`). -/
structure responseTemplate where
  isTemplate : Bool
  isBinData : Bool
  statusCode : Nat
  headerFields : List (String × String)
  body : ByteStr
  htmlTemplate : Option GoTemplate

/-- `newResponseTemplate`: decode a base64 body (an invalid one aborts
compilation), otherwise take the literal body bytes; build the response
header; parse the template when `is_template` is set (a parse failure also
aborts compilation). Template parsing is external (`html/template`), passed
in as `parse`. -/
def newResponseTemplate (parse : ByteStr → Option GoTemplate)
    (rrt : ResourceResponseTemplate) : Except String responseTemplate :=
  match (if rrt.B64EncodedBody ≠ "" then
          match base64Decode rrt.B64EncodedBody with
          | none => Except.error "failed to decode base64encoded body data"
          | some bs => Except.ok (bs, true)
         else Except.ok (strBytes rrt.Body, false) :
         Except String (ByteStr × Bool)) with
  | Except.error e => Except.error e
  | Except.ok bodyBin =>
    let rt : responseTemplate :=
      { isTemplate := rrt.IsTemplate, isBinData := bodyBin.2,
        statusCode := rrt.StatusCode, headerFields := rrt.Header,
        body := bodyBin.1, htmlTemplate := none }
    if rt.isTemplate then
      match parse rt.body with
      | none => Except.error "failed to parse html template"
      | some t => Except.ok { rt with htmlTemplate := some t }
    else Except.ok rt

/-- The compiled template fields as the domain-layer `TemplateExecutor`
carries them (same data, renamed fields). -/
def responseTemplate.toTemplateExecutor (rt : responseTemplate) :
    TemplateExecutor :=
  { IsGolangTemplate := rt.isTemplate, IsBinData := rt.isBinData,
    template := rt.htmlTemplate, statusCode := rt.statusCode,
    headerFields := rt.headerFields, body := rt.body }

/-- A Go `interface{}` value as the `plus` template helper inspects it:
`int`, `float64`, `float32`, `string`, or any other dynamic type. Float
payloads are modelled as rationals with exact arithmetic (IEEE rounding is
outside the claims about this helper). -/
inductive GoValue
  | goInt : Int → GoValue
  | goFloat64 : Rat → GoValue
  | goFloat32 : Rat → GoValue
  | goString : String → GoValue
  | goOther : GoValue
deriving DecidableEq, Repr

/-- Two's-complement wrap-around of 64-bit Go `int` addition results. -/
def i64wrap (v : Int) : Int := (v + 2 ^ 63) % 2 ^ 64 - 2 ^ 63

/-- Digit run of `strconv.Atoi`: all characters must be decimal digits and
there must be at least one. -/
def parseDigits (cs : List Char) : Option Nat :=
  if cs.isEmpty then none
  else
    cs.foldl (fun acc c =>
      match acc with
      | none => none
      | some n => if c.isDigit then some (n * 10 + (c.toNat - 48)) else none)
      (some 0)

/-- `strconv.Atoi`: optional sign, decimal digits, 64-bit range check
(out-of-range input is an error). -/
def goAtoi (s : String) : Option Int :=
  let signed : Int × List Char :=
    match s.data with
    | '+' :: r => (1, r)
    | '-' :: r => (-1, r)
    | r => (1, r)
  match parseDigits signed.2 with
  | none => none
  | some n =>
    let v : Int := signed.1 * n
    if -(2 ^ 63) ≤ v ∧ v ≤ 2 ^ 63 - 1 then some v else none

/-- The `plus` template helper: type-switch on the dynamic type of `v`. -/
def plus (v : GoValue) (i : Int) : GoValue :=
  match v with
  | GoValue.goInt n => GoValue.goInt (i64wrap (n + i))
  | GoValue.goFloat64 x => GoValue.goFloat64 (x + (i : Rat))
  | GoValue.goFloat32 x => GoValue.goFloat32 (x + (i : Rat))
  | GoValue.goString s =>
    match goAtoi s with
    | none => GoValue.goString "unsupported type"
    | some vv => GoValue.goInt (i64wrap (vv + i))
  | GoValue.goOther => GoValue.goString "unsupported type"

/-- The running default-tracking accumulator of the `FindRegulationExecutor`
loop, in isolation: the last default regulation seen, starting from `acc`. -/
def lastDefaultFrom (regs : List RegulationExecutor)
    (acc : Option RegulationExecutor) : Option RegulationExecutor :=
  regs.foldl (fun a r => if r.IsDefault then some r else a) acc

/-- Claim C1: the spec says keyword mode for header and query sub-filters
passes iff every configured key's request value contains the configured
keyword as a substring. The source's own `filterByKeyword` implements exactly
that and its comment on `FilterModeKeyword` says "ensure contains(a, b) is
true", but both `Filter` dispatchers route `FilterModeKeyword` to
`filterByExactKeyValue`. At the failing input — configured keyword "ell",
request value "Hello" — the keyword predicate holds (and `filterByKeyword`
returns true) yet `Filter` returns false, for the header and the query
sub-filter alike. -/
theorem keywordMode_dispatches_to_exact_comparison :
    (HeaderFilterExecutor.Filter
        (some { params := [("k", strBytes "ell")], mode := FilterModeKeyword,
                regulars := fun _ _ => false })
        (fun k => if k = "k" then strBytes "Hello" else []) = false) ∧
    (HeaderFilterExecutor.filterByKeyword
        { params := [("k", strBytes "ell")], mode := FilterModeKeyword,
          regulars := fun _ _ => false }
        (fun k => if k = "k" then strBytes "Hello" else []) = true) ∧
    (QueryFilterExecutor.Filter
        (some { params := [("q", strBytes "ell")], mode := FilterModeKeyword,
                regulars := fun _ _ => false })
        (fun k => if k = "q" then strBytes "Hello" else []) = false) ∧
    (QueryFilterExecutor.filterByKeyword
        { params := [("q", strBytes "ell")], mode := FilterModeKeyword,
          regulars := fun _ _ => false }
        (fun k => if k = "q" then strBytes "Hello" else []) = true) ∧
    bytesContains (strBytes "Hello") (strBytes "ell") = true := by
  refine ⟨?_, ?_, ?_, ?_, ?_⟩ <;> decide

/-- Claim C2: the composite filter passes iff the header, query and body
sub-filters all pass, in that order with short-circuiting (the evaluation
trace after a failing header filter is exactly `[header]`); a nil composite
filter and nil sub-filters always pass. -/
theorem filterExecutor_filter_spec (fe : FilterExecutor) (request : Request) :
    (FilterExecutor.Filter none request = true) ∧
    (FilterExecutor.Filter (some fe) request =
      (HeaderFilterExecutor.Filter fe.Header request.header &&
       QueryFilterExecutor.Filter fe.Query request.query &&
       BodyFilterExecutor.Filter fe.Body request.body)) ∧
    (HeaderFilterExecutor.Filter none request.header = true) ∧
    (QueryFilterExecutor.Filter none request.query = true) ∧
    (BodyFilterExecutor.Filter none request.body = true) ∧
    ((FilterExecutor.filterTrace (some fe) request).1 =
      FilterExecutor.Filter (some fe) request) ∧
    ((FilterExecutor.filterTrace (some fe) request).2 =
      if HeaderFilterExecutor.Filter fe.Header request.header then
        if QueryFilterExecutor.Filter fe.Query request.query then
          [SubFilter.header, SubFilter.query, SubFilter.body]
        else [SubFilter.header, SubFilter.query]
      else [SubFilter.header]) := by
  refine ⟨rfl, ?_, rfl, rfl, rfl, ?_, ?_⟩ <;>
  · by_cases h1 : HeaderFilterExecutor.Filter fe.Header request.header <;>
      by_cases h2 : QueryFilterExecutor.Filter fe.Query request.query <;>
        by_cases h3 : BodyFilterExecutor.Filter fe.Body request.body <;>
          simp [FilterExecutor.Filter, FilterExecutor.filterTrace, h1, h2, h3]

theorem getLast?_cons_eq_or {α : Type} (a : α) (l : List α) :
    (a :: l).getLast? = l.getLast?.or (some a) := by
  induction l generalizing a with
  | nil => rfl
  | cons b t ih =>
    rw [List.getLast?_cons_cons, ih b]
    cases t.getLast? <;> rfl

theorem lastDefaultFrom_eq (regs : List RegulationExecutor) :
    ∀ acc, lastDefaultFrom regs acc =
      ((regs.filter (fun r => r.IsDefault)).getLast?).or acc := by
  induction regs with
  | nil => intro acc; rfl
  | cons r rest ih =>
    intro acc
    show lastDefaultFrom rest (if r.IsDefault then some r else acc) = _
    rw [List.filter_cons]
    by_cases hd : r.IsDefault = true
    · rw [if_pos hd, if_pos hd, ih, getLast?_cons_eq_or]
      cases (rest.filter (fun r => r.IsDefault)).getLast? <;> rfl
    · rw [if_neg hd, ih]
      simp only [hd]
      rw [if_neg (by simp [hd])]

theorem findRegulationLoop_eq (req : Request) (regs : List RegulationExecutor) :
    ∀ acc, findRegulationLoop req regs acc =
      (match regs.find? (fun r => FilterExecutor.Filter r.Filter req) with
       | some r => some r
       | none => lastDefaultFrom regs acc) := by
  induction regs with
  | nil => intro acc; rfl
  | cons r rest ih =>
    intro acc
    by_cases hp : FilterExecutor.Filter r.Filter req = true
    · simp [findRegulationLoop, hp, List.find?_cons_of_pos]
    · rw [List.find?_cons_of_neg _ (by simp [hp])]
      show (if FilterExecutor.Filter r.Filter req = true then some r
            else findRegulationLoop req rest
              (if r.IsDefault then some r else acc)) = _
      rw [if_neg hp, ih]
      cases hf : List.find? (fun r => FilterExecutor.Filter r.Filter req) rest with
      | none => simp only [hf]; rfl
      | some r0 => simp only [hf]

theorem findRegulationEvalCount_eq (req : Request)
    (regs : List RegulationExecutor) :
    findRegulationEvalCount req regs =
      (if regs.any (fun r => FilterExecutor.Filter r.Filter req) then
        (regs.takeWhile (fun r => !FilterExecutor.Filter r.Filter req)).length
          + 1
       else regs.length) := by
  induction regs with
  | nil => rfl
  | cons r rest ih =>
    by_cases hp : FilterExecutor.Filter r.Filter req = true
    · simp [findRegulationEvalCount, hp, List.takeWhile_cons]
    · have hp' : (!FilterExecutor.Filter r.Filter req) = true := by
        simp [hp]
      show (if FilterExecutor.Filter r.Filter req = true then 1
            else 1 + findRegulationEvalCount req rest) = _
      rw [if_neg hp, ih, List.any_cons, List.takeWhile_cons]
      by_cases ha : rest.any (fun r => FilterExecutor.Filter r.Filter req) = true
      · simp [hp, hp', ha]
        omega
      · simp [hp, hp', ha]
        omega

/-- Claim C3: `FindRegulationExecutor` returns the first regulation (in
configured order) whose filter passes, evaluating exactly as many filters as
needed (the instrumented count stops at the first match); when no filter
passes it returns the designated default regulation; with exactly one default
in the set the result is never `none`. -/
theorem findRegulationExecutor_spec (exe : Executor) (req : Request)
    (d : RegulationExecutor)
    (hd : exe.Regulations.filter (fun r => r.IsDefault) = [d]) :
    (∀ r, exe.Regulations.find?
        (fun r => FilterExecutor.Filter r.Filter req) = some r →
      exe.FindRegulationExecutor req = some r) ∧
    (exe.Regulations.find?
        (fun r => FilterExecutor.Filter r.Filter req) = none →
      exe.FindRegulationExecutor req = some d) ∧
    (exe.FindRegulationExecutor req).isSome = true ∧
    (findRegulationEvalCount req exe.Regulations =
      if exe.Regulations.any (fun r => FilterExecutor.Filter r.Filter req) then
        (exe.Regulations.takeWhile
          (fun r => !FilterExecutor.Filter r.Filter req)).length + 1
      else exe.Regulations.length) := by
  have hloop := findRegulationLoop_eq req exe.Regulations none
  have hlast := lastDefaultFrom_eq exe.Regulations none
  rw [hd] at hlast
  refine ⟨?_, ?_, ?_, findRegulationEvalCount_eq req exe.Regulations⟩
  · intro r hr
    show findRegulationLoop req exe.Regulations none = some r
    rw [hloop, hr]
  · intro hnone
    show findRegulationLoop req exe.Regulations none = some d
    rw [hloop, hnone, hlast]
    rfl
  · show (findRegulationLoop req exe.Regulations none).isSome = true
    rw [hloop]
    cases hf : exe.Regulations.find?
        (fun r => FilterExecutor.Filter r.Filter req) with
    | some r => rfl
    | none => rw [hlast]; rfl

/-- Witness for C3 at a one-element regulation list whose single regulation
is the default with a nil filter. -/
theorem findRegulationExecutor_spec_witness :
    (Executor.FindRegulationExecutor
      { ID := "r", Method := [], Path := fun _ => true, Weight := [],
        Regulations := [{ IsDefault := true, Filter := none,
                          Template := none }],
        Version := 1 }
      { header := fun _ => [], query := fun _ => [], body := [] }).isSome
      = true := by
  exact (findRegulationExecutor_spec
    { ID := "r", Method := [], Path := fun _ => true, Weight := [],
      Regulations := [{ IsDefault := true, Filter := none, Template := none }],
      Version := 1 }
    { header := fun _ => [], query := fun _ => [], body := [] }
    { IsDefault := true, Filter := none, Template := none } rfl).2.2.1

/-- Claim C4: `Executor.Match` returns true iff the method bytes equal the
configured method byte-for-byte (case-sensitive) and the compiled path
pattern matches the full path argument; it is a total boolean function, so
matching never errors. -/
theorem executor_match_spec (exe : Executor) (path method : ByteStr) :
    exe.Match path method = true ↔
      (method = exe.Method ∧ exe.Path path = true) := by
  by_cases h : method = exe.Method <;>
    simp [Executor.Match, h]

theorem regulationSetCheckLoop_ok_iff (rs : List ResourceResponseRegulation) :
    ∀ d dOut, regulationSetCheckLoop rs d = Except.ok dOut ↔
      ((∀ r ∈ rs, r.IsDefault = true ∨ r.Filter ≠ none) ∧
       dOut = d + (rs.filter (fun r => r.IsDefault)).length) := by
  induction rs with
  | nil =>
    intro d dOut
    show Except.ok d = Except.ok dOut ↔ _
    constructor
    · intro h
      refine ⟨?_, ?_⟩
      · intro r hr
        cases hr
      · have hdd : d = dOut := by injection h
        simp [hdd]
    · rintro ⟨-, hval⟩
      simp only [List.filter_nil, List.length_nil, Nat.add_zero] at hval
      rw [hval]
  | cons r rest ih =>
    intro d dOut
    show (match r.check with
          | Except.error e => Except.error e
          | Except.ok _ =>
            regulationSetCheckLoop rest (if r.IsDefault then d + 1 else d))
        = Except.ok dOut ↔ _
    cases hd : r.IsDefault with
    | true =>
      have hck : r.check = Except.ok () := by
        simp [ResourceResponseRegulation.check, hd]
      rw [hck]
      simp only [hd, if_true, ih, List.filter_cons, List.mem_cons]
      constructor
      · rintro ⟨hall, hval⟩
        refine ⟨?_, ?_⟩
        · rintro r' (rfl | hr')
          · exact Or.inl hd
          · exact hall r' hr'
        · simp only [hd, if_true, List.length_cons]
          omega
      · rintro ⟨hall, hval⟩
        refine ⟨fun r' hr' => hall r' (Or.inr hr'), ?_⟩
        simp only [hd, if_true, List.length_cons] at hval
        omega
    | false =>
      cases hfil : r.Filter with
      | none =>
        have hck : r.check = Except.error
            "missing filter rule, or set as default response" := by
          simp [ResourceResponseRegulation.check, hd, hfil]
        rw [hck]
        simp only [List.mem_cons]
        constructor
        · intro h
          exact absurd h (by simp)
        · rintro ⟨hall, _⟩
          rcases hall r (Or.inl rfl) with h | h
          · rw [hd] at h; cases h
          · exact absurd hfil h
      | some f =>
        have hck : r.check = Except.ok () := by
          simp [ResourceResponseRegulation.check, hd, hfil]
        rw [hck]
        simp only [hd, if_false, ih, List.filter_cons, List.mem_cons]
        constructor
        · rintro ⟨hall, hval⟩
          refine ⟨?_, ?_⟩
          · rintro r' (rfl | hr')
            · exact Or.inr (by simp [hfil])
            · exact hall r' hr'
          · simpa [hd] using hval
        · rintro ⟨hall, hval⟩
          exact ⟨fun r' hr' => hall r' (Or.inr hr'), by simpa [hd] using hval⟩

/-- Claim C7: validating a regulation set succeeds iff the set is non-nil,
exactly one regulation is marked default, and every non-default regulation
carries a filter. -/
theorem resourceResponseRegulationSet_check_spec
    (mrs : ResourceResponseRegulationSet) :
    ResourceResponseRegulationSet.check mrs = Except.ok () ↔
      (∃ rs, mrs = some rs ∧
        (rs.filter (fun r => r.IsDefault)).length = 1 ∧
        ∀ r ∈ rs, r.IsDefault = false → r.Filter ≠ none) := by
  cases mrs with
  | none => simp [ResourceResponseRegulationSet.check]
  | some rs =>
    show (match regulationSetCheckLoop rs 0 with
          | Except.error e => Except.error e
          | Except.ok d =>
            if d ≠ 1 then
              Except.error "no default response or provided more than one"
            else Except.ok ()) = Except.ok () ↔ _
    constructor
    · intro h
      cases hl : regulationSetCheckLoop rs 0 with
      | error e => rw [hl] at h; exact absurd h (by simp)
      | ok dv =>
        have h' : (if dv ≠ 1 then
            (Except.error "no default response or provided more than one" :
              Except String Unit)
          else Except.ok ()) = Except.ok () := by
          rw [hl] at h; exact h
        by_cases hdv : dv = 1
        · have hspec := (regulationSetCheckLoop_ok_iff rs 0 dv).mp hl
          have hval := hspec.2
          refine ⟨rs, rfl, by omega, ?_⟩
          intro r hr hrd
          rcases hspec.1 r hr with hcase | hcase
          · rw [hrd] at hcase; cases hcase
          · exact hcase
        · rw [if_pos hdv] at h'
          exact absurd h' (by simp)
    · rintro ⟨rs', heq, hlen, hfilter⟩
      injection heq with hrs
      subst hrs
      have hall : ∀ r ∈ rs, r.IsDefault = true ∨ r.Filter ≠ none := by
        intro r hr
        cases hd : r.IsDefault with
        | true => exact Or.inl rfl
        | false => exact Or.inr (hfilter r hr hd)
      have hl : regulationSetCheckLoop rs 0 = Except.ok 1 :=
        (regulationSetCheckLoop_ok_iff rs 0 1).mpr ⟨hall, by omega⟩
      rw [hl]
      simp

/-- Claim C10: for each of the three filter kinds, a sub-filter whose mode
string is none of the modes handled by that kind returns false on every
input; in particular a body filter configured with mode "exact" (which body
filtering does not support) rejects all bodies. -/
theorem unknownMode_rejects_all (hfe : HeaderFilterExecutor)
    (qfe : QueryFilterExecutor) (bfe : BodyFilterExecutor)
    (header args : PeekMap) (body : ByteStr)
    (hh : hfe.mode ∉ [FilterModeAlwaysTrue, FilterModeExact,
                      FilterModeKeyword, FilterModeRegular])
    (hq : qfe.mode ∉ [FilterModeAlwaysTrue, FilterModeExact,
                      FilterModeKeyword, FilterModeRegular])
    (hb : bfe.mode ∉ [FilterModeAlwaysTrue, FilterModeKeyword,
                      FilterModeRegular]) :
    HeaderFilterExecutor.Filter (some hfe) header = false ∧
    QueryFilterExecutor.Filter (some qfe) args = false ∧
    BodyFilterExecutor.Filter (some bfe) body = false ∧
    (∀ bfe2 : BodyFilterExecutor, bfe2.mode = FilterModeExact →
      BodyFilterExecutor.Filter (some bfe2) body = false) := by
  simp only [List.mem_cons, List.mem_singleton, not_or] at hh hq hb
  refine ⟨?_, ?_, ?_, ?_⟩
  · simp [HeaderFilterExecutor.Filter, hh.1, hh.2.1, hh.2.2.1, hh.2.2.2]
  · simp [QueryFilterExecutor.Filter, hq.1, hq.2.1, hq.2.2.1, hq.2.2.2]
  · simp [BodyFilterExecutor.Filter, hb.1, hb.2.1, hb.2.2]
  · intro bfe2 hmode
    have h1 : bfe2.mode ≠ FilterModeAlwaysTrue := by
      rw [hmode]; decide
    have h2 : bfe2.mode ≠ FilterModeKeyword := by
      rw [hmode]; decide
    have h3 : bfe2.mode ≠ FilterModeRegular := by
      rw [hmode]; decide
    simp [BodyFilterExecutor.Filter, h1, h2, h3]

/-- Witness for C10 at the unrecognized mode string "bogus" (and mode "exact"
for the body filter). -/
theorem unknownMode_rejects_all_witness :
    HeaderFilterExecutor.Filter
      (some { params := [], mode := "bogus", regulars := fun _ _ => false })
      (fun _ => []) = false ∧
    BodyFilterExecutor.Filter
      (some { mode := "exact", regular := fun _ => false, keyword := [] })
      [] = false := by
  have h := unknownMode_rejects_all
    { params := [], mode := "bogus", regulars := fun _ _ => false }
    { params := [], mode := "bogus", regulars := fun _ _ => false }
    { mode := "bogus", regular := fun _ => false, keyword := [] }
    (fun _ => []) (fun _ => []) []
    (by decide) (by decide) (by decide)
  exact ⟨h.1, h.2.2.2 { mode := "exact", regular := fun _ => false,
                        keyword := [] } rfl⟩

theorem pushVariantN_eq (k : String) (n : Nat) :
    ∀ wd : WeightDice, pushVariantN wd k n =
      { total := wd.total + n,
        distribution := wd.distribution ++ List.replicate n k,
        factor := wd.factor } := by
  induction n with
  | zero => intro wd; simp [pushVariantN]
  | succ n ih =>
    intro wd
    show pushVariantN (pushVariant wd k) k n = _
    rw [ih]
    simp only [pushVariant, WeightDice.mk.injEq]
    refine ⟨by omega, ?_, trivial⟩
    rw [List.append_assoc, List.singleton_append, List.replicate_succ]

theorem newWeightDiceLoop_eq (factor : List (String × Nat)) :
    ∀ wd : WeightDice,
      factor.foldl (fun wd kv => pushVariantN wd kv.1 kv.2) wd =
        { total := wd.total + (factor.map Prod.snd).sum,
          distribution := wd.distribution ++
            (factor.map (fun p => List.replicate p.2 p.1)).flatten,
          factor := wd.factor } := by
  induction factor with
  | nil => intro wd; simp
  | cons p rest ih =>
    intro wd
    show rest.foldl _ (pushVariantN wd p.1 p.2) = _
    rw [ih, pushVariantN_eq]
    simp only [WeightDice.mk.injEq, List.map_cons, List.sum_cons,
      List.flatten_cons]
    refine ⟨by omega, ?_, trivial⟩
    rw [List.append_assoc]

theorem newWeightDice_fields (factor : List (String × Nat)) :
    (NewWeightDice factor).total = (factor.map Prod.snd).sum ∧
    (NewWeightDice factor).distribution =
      (factor.map (fun p => List.replicate p.2 p.1)).flatten ∧
    (NewWeightDice factor).factor = factor := by
  unfold NewWeightDice
  rw [newWeightDiceLoop_eq]
  simp

theorem count_flatten_replicate (k : String) (factor : List (String × Nat)) :
    ((factor.map (fun p => List.replicate p.2 p.1)).flatten).count k =
      (factor.map (fun p => if p.1 = k then p.2 else 0)).sum := by
  induction factor with
  | nil => rfl
  | cons p rest ih =>
    simp only [List.map_cons, List.flatten_cons, List.count_append, ih,
      List.sum_cons]
    congr 1
    rw [List.count_replicate]
    by_cases hp : p.1 = k <;> simp [hp]

theorem sum_weight_at_key (k : String) (w : Nat) :
    ∀ factor : List (String × Nat), (factor.map Prod.fst).Nodup →
      (k, w) ∈ factor →
      (factor.map (fun p => if p.1 = k then p.2 else 0)).sum = w := by
  intro factor
  induction factor with
  | nil => intro _ hmem; cases hmem
  | cons p rest ih =>
    intro hnd hmem
    simp only [List.map_cons, List.nodup_cons] at hnd
    simp only [List.map_cons, List.sum_cons]
    rcases List.mem_cons.mp hmem with heq | hmem'
    · obtain ⟨hp1, hp2⟩ : p.1 = k ∧ p.2 = w := by
        rw [← heq]
        exact ⟨rfl, rfl⟩
      have hk : k ∉ rest.map Prod.fst := hp1 ▸ hnd.1
      have hz : (rest.map (fun p => if p.1 = k then p.2 else 0)).sum = 0 := by
        apply List.sum_eq_zero
        intro x hx
        rcases List.mem_map.mp hx with ⟨q, hq, rfl⟩
        have hqk : q.1 ≠ k := fun hcontra =>
          hk (hcontra ▸ List.mem_map_of_mem Prod.fst hq)
        simp [hqk]
      rw [hz, hp1, if_pos rfl, hp2]
      omega
    · have hpk : p.1 ≠ k := by
        intro hcontra
        apply hnd.1
        rw [hcontra]
        exact List.mem_map_of_mem Prod.fst hmem'
      rw [if_neg hpk, ih hnd.2 hmem']
      omega

/-- Claim C5: `NewWeightDice` builds a flattened distribution in which each
variant occurs exactly its configured weight many times and `total` is the
sum of all weights (hence also the distribution's length), so a uniformly
random index drawn by `Dice` selects a variant with probability
weight/total. -/
theorem newWeightDice_spec (factor : List (String × Nat)) (k : String)
    (w : Nat) (hnd : (factor.map Prod.fst).Nodup) (hmem : (k, w) ∈ factor) :
    (NewWeightDice factor).distribution.count k = w ∧
    (NewWeightDice factor).total = (factor.map Prod.snd).sum ∧
    (NewWeightDice factor).distribution.length = (NewWeightDice factor).total ∧
    ((NewWeightDice factor).total ≠ 0 →
      (((NewWeightDice factor).distribution.count k : ℚ) /
          ((NewWeightDice factor).total : ℚ) =
        (w : ℚ) / (((factor.map Prod.snd).sum : Nat) : ℚ))) := by
  obtain ⟨htot, hdistr, -⟩ := newWeightDice_fields factor
  have hcount : (NewWeightDice factor).distribution.count k = w := by
    rw [hdistr, count_flatten_replicate, sum_weight_at_key k w factor hnd hmem]
  have hlen : (NewWeightDice factor).distribution.length =
      (NewWeightDice factor).total := by
    rw [hdistr, htot, List.length_flatten, List.map_map]
    congr 1
    apply List.map_congr_left
    intro p _
    simp [Function.comp]
  refine ⟨hcount, htot, hlen, fun _ => ?_⟩
  rw [hcount, htot]

/-- Witness for C5 at the spec's example, weights A=3 and B=1: "A" occurs
three times in a distribution of total 4, giving probability 3/4. -/
theorem newWeightDice_spec_witness :
    (NewWeightDice [("A", 3), ("B", 1)]).distribution.count "A" = 3 ∧
    (NewWeightDice [("A", 3), ("B", 1)]).total = 4 ∧
    (((NewWeightDice [("A", 3), ("B", 1)]).distribution.count "A" : ℚ) /
        ((NewWeightDice [("A", 3), ("B", 1)]).total : ℚ) = 3 / 4) := by
  have h := newWeightDice_spec [("A", 3), ("B", 1)] "A" 3 (by decide)
    (by decide)
  have htot : (NewWeightDice [("A", 3), ("B", 1)]).total = 4 := by
    rw [h.2.1]
    decide
  refine ⟨h.1, htot, ?_⟩
  rw [h.1, htot]
  norm_num

/-- Claim C6: under the spec-modelled compile-time weight check (total
weight positive), the compiled dice has a nonzero total and `Dice` is safe:
it never hits the `rand.Intn` panic branch and always yields a variant,
whatever the random draw. -/
theorem weightDice_dice_safety (factor : List (String × Nat))
    (hck : checkWeightFactor factor = true) :
    (NewWeightDice factor).total ≠ 0 ∧
    ∀ i : Nat, ((NewWeightDice factor).Dice i).isSome = true := by
  have hsum : 0 < (factor.map Prod.snd).sum := by
    simpa [checkWeightFactor] using hck
  obtain ⟨htot, hdistr, -⟩ := newWeightDice_fields factor
  have hlen : (NewWeightDice factor).distribution.length =
      (NewWeightDice factor).total := by
    rw [hdistr, htot, List.length_flatten, List.map_map]
    congr 1
    apply List.map_congr_left
    intro p _
    simp [Function.comp]
  have htotpos : (NewWeightDice factor).total ≠ 0 := by omega
  refine ⟨htotpos, fun i => ?_⟩
  rw [WeightDice.Dice, if_neg htotpos]
  have hidx : i % (NewWeightDice factor).total <
      (NewWeightDice factor).distribution.length := by
    rw [hlen]
    exact Nat.mod_lt i (Nat.pos_of_ne_zero htotpos)
  rw [List.getElem?_eq_getElem hidx]
  rfl

/-- Witness for C6: the one-variant group with weight 1 passes the
compile-time check and every draw is defined. -/
theorem weightDice_dice_safety_witness :
    ((NewWeightDice [("A", 1)]).Dice 5).isSome = true := by
  exact (weightDice_dice_safety [("A", 1)] (by decide)).2 5

/-- Claim C8: a base64-encoded body is decoded at compile time — invalid
base64 aborts compilation with an error, and the compiled template stores the
decoded bytes, which the non-template render path copies verbatim into the
response without any further decoding; in particular base64 body "SGVsbG8="
with is_template=false yields response body bytes "Hello". -/
theorem responseTemplate_base64_spec
    (parse : ByteStr → Option GoTemplate)
    (rrt : ResourceResponseTemplate) (bs : ByteStr)
    (req : Request) (resp : Response)
    (hb64 : rrt.B64EncodedBody ≠ "") :
    (base64Decode rrt.B64EncodedBody = none →
      newResponseTemplate parse rrt =
        Except.error "failed to decode base64encoded body data") ∧
    (∀ rt, base64Decode rrt.B64EncodedBody = some bs →
      newResponseTemplate parse rrt = Except.ok rt → rt.body = bs) ∧
    (∀ rt : responseTemplate, rt.isTemplate = false →
      TemplateExecutor.Render rt.toTemplateExecutor req resp =
        Except.ok { statusCode := rt.statusCode,
                    headerFields := rt.headerFields,
                    body := rt.body }) ∧
    ((newResponseTemplate parse
        { IsTemplate := false, Header := [], StatusCode := 200, Body := "",
          B64EncodedBody := "SGVsbG8=" }).map
      (fun rt => rt.body) = Except.ok (strBytes "Hello")) := by
  refine ⟨?_, ?_, ?_, ?_⟩
  · intro hdec
    simp [newResponseTemplate, hb64, hdec]
  · intro rt hdec hok
    simp only [newResponseTemplate, hdec] at hok
    rw [if_pos hb64] at hok
    replace hok : (if rrt.IsTemplate then
        (match parse bs with
         | none => (Except.error "failed to parse html template" :
             Except String responseTemplate)
         | some t => Except.ok
             { isTemplate := rrt.IsTemplate, isBinData := true,
               statusCode := rrt.StatusCode, headerFields := rrt.Header,
               body := bs, htmlTemplate := some t })
      else Except.ok
        { isTemplate := rrt.IsTemplate, isBinData := true,
          statusCode := rrt.StatusCode, headerFields := rrt.Header,
          body := bs, htmlTemplate := none }) = Except.ok rt := hok
    by_cases ht : rrt.IsTemplate = true
    · rw [if_pos ht] at hok
      cases hp : parse bs with
      | none => rw [hp] at hok; exact absurd hok (by simp)
      | some t =>
        rw [hp] at hok
        injection hok with hrt
        rw [← hrt]
    · rw [if_neg ht] at hok
      injection hok with hrt
      rw [← hrt]
  · intro rt ht
    simp [TemplateExecutor.Render, responseTemplate.toTemplateExecutor, ht]
  · rfl

/-- Witness for C8 at the spec's scenario: compiling base64 body "SGVsbG8="
with is_template=false stores exactly the bytes of "Hello". -/
theorem responseTemplate_base64_spec_witness :
    (newResponseTemplate (fun _ => none)
        { IsTemplate := false, Header := [], StatusCode := 200, Body := "",
          B64EncodedBody := "SGVsbG8=" }).map
      (fun rt => rt.body) = Except.ok (strBytes "Hello") := by
  exact (responseTemplate_base64_spec (fun _ => none)
    { IsTemplate := false, Header := [], StatusCode := 200, Body := "",
      B64EncodedBody := "SGVsbG8=" }
    (strBytes "Hello")
    { header := fun _ => [], query := fun _ => [], body := [] }
    { statusCode := 0, headerFields := [], body := [] }
    (by decide)).2.2.2

theorem i64wrap_eq_self (v : Int) (h1 : -(2 ^ 63) ≤ v) (h2 : v < 2 ^ 63) :
    i64wrap v = v := by
  unfold i64wrap
  have h0 : 0 ≤ v + 2 ^ 63 := by omega
  have hlt : v + 2 ^ 63 < 2 ^ 64 := by omega
  rw [Int.emod_eq_of_lt h0 hlt]
  omega

/-- Claim C9: the `plus` template helper adds its integer increment to
integer, floating, and numeric-string inputs, and for a non-numeric string
or any other dynamic type returns the literal marker "unsupported type"
instead of raising an error; it is a total function, so the helper never
throws during template execution. Integer results are stated for draws whose
mathematical sum fits a 64-bit Go int (outside that range Go addition
wraps). -/
theorem plus_spec (n : Int) (x y : Rat) (s : String) (v i : Int)
    (hn : -(2 ^ 63) ≤ n + i ∧ n + i < 2 ^ 63)
    (hs : goAtoi s = some v)
    (hv : -(2 ^ 63) ≤ v + i ∧ v + i < 2 ^ 63) :
    plus (GoValue.goInt n) i = GoValue.goInt (n + i) ∧
    plus (GoValue.goFloat64 x) i = GoValue.goFloat64 (x + (i : Rat)) ∧
    plus (GoValue.goFloat32 y) i = GoValue.goFloat32 (y + (i : Rat)) ∧
    plus (GoValue.goString s) i = GoValue.goInt (v + i) ∧
    (∀ s2, goAtoi s2 = none →
      plus (GoValue.goString s2) i = GoValue.goString "unsupported type") ∧
    plus GoValue.goOther i = GoValue.goString "unsupported type" := by
  refine ⟨?_, rfl, rfl, ?_, ?_, rfl⟩
  · show GoValue.goInt (i64wrap (n + i)) = GoValue.goInt (n + i)
    rw [i64wrap_eq_self (n + i) hn.1 hn.2]
  · show (match goAtoi s with
          | none => GoValue.goString "unsupported type"
          | some vv => GoValue.goInt (i64wrap (vv + i))) = _
    rw [hs]
    show GoValue.goInt (i64wrap (v + i)) = _
    rw [i64wrap_eq_self (v + i) hv.1 hv.2]
  · intro s2 hs2
    show (match goAtoi s2 with
          | none => GoValue.goString "unsupported type"
          | some vv => GoValue.goInt (i64wrap (vv + i))) = _
    rw [hs2]

/-- Witness for C9: 41+1 for an int, the numeric string "41", and the
non-numeric string "abc". -/
theorem plus_spec_witness :
    plus (GoValue.goInt 41) 1 = GoValue.goInt 42 ∧
    plus (GoValue.goString "41") 1 = GoValue.goInt 42 ∧
    plus (GoValue.goString "abc") 1 = GoValue.goString "unsupported type" := by
  have h := plus_spec 41 0 0 "41" 41 1 (by decide) (by decide) (by decide)
  exact ⟨h.1, h.2.2.2.1, h.2.2.2.2.1 "abc" (by decide)⟩

end Deepmock
